import Mathlib

/-!
Verification of the slangpy core (`src/sgl/utils/slangpy.h`): the `Shape`
descriptor, the `CallMode` enumeration and the `CallContext` bundle.

Machine-integer conventions of the embedding:
* C++ `int` dimension values are embedded as `Int`.
* C++ `size_t` arithmetic (used by `Shape::element_count`) is unsigned
  64-bit modular arithmetic, embedded as `Nat` with explicit `% 2 ^ 64`;
  the `int → size_t` conversion is the mathematical residue mod `2 ^ 64`.
* `SGL_THROW("Shape is invalid")` is embedded as the `Except` error
  `SlangpyError.invalidState`.
-/

deriving instance DecidableEq for Except

namespace Slangpy

/-- Error raised by `SGL_THROW("Shape is invalid")` inside `Shape::as_vector`;
the spec's error taxonomy calls it `InvalidState`. -/
inductive SlangpyError where
  | invalidState
deriving DecidableEq, Repr

/-- Source: `enum class CallMode { prim = 0, bwds = 1, fwds = 2 }`. -/
inductive CallMode where
  | prim
  | bwds
  | fwds
deriving DecidableEq, Repr

/-- Source: `enum class AccessType { none, read, write, readwrite }`. -/
inductive AccessType where
  | none
  | read
  | write
  | readwrite
deriving DecidableEq, Repr

/-- Source: `class Shape`: a single field `std::optional<std::vector<int>> m_shape`. -/
structure Shape where
  m_shape : Option (List Int)
deriving DecidableEq, Repr

namespace Shape

/-- Source: `Shape() = default`: the default-constructed Shape has an absent optional. -/
def mkInvalid : Shape := ⟨none⟩

/-- Source: `Shape(const std::optional<std::vector<int>>&)`: constructor from an
optional sequence. -/
def ofOption (o : Option (List Int)) : Shape := ⟨o⟩

/-- Source: `Shape(std::initializer_list<int>)`: constructor from a literal list,
always yielding a present sequence. -/
def ofList (l : List Int) : Shape := ⟨some l⟩

/-- Source: `Shape::as_vector` (const form): returns the stored vector, or throws
`SGL_THROW("Shape is invalid")` when the optional is absent. -/
def as_vector (s : Shape) : Except SlangpyError (List Int) :=
  match s.m_shape with
  | none => .error .invalidState
  | some v => .ok v

/-- Source: `Shape::valid`: `m_shape.has_value()`. Never throws. -/
def valid (s : Shape) : Bool := s.m_shape.isSome

/-- Source: `Shape::size`: `as_vector().size()`; propagates the invalid-state error. -/
def size (s : Shape) : Except SlangpyError Nat :=
  (s.as_vector).map List.length

/-- Source: `Shape::concrete`: loops over `as_vector()`, returning `false` on the
first dimension equal to `-1`, else `true`. -/
def concrete (s : Shape) : Except SlangpyError Bool :=
  (s.as_vector).map (fun v => v.all (fun dim => dim != -1))

/-- Source: `Shape::operator[]` (const form): `as_vector()[i]`. An out-of-range
index is unchecked in the source (`std::vector::operator[]`); the embedding
uses `List.getD` with default `0` — the claims never rely on the
out-of-range value, only on the invalid-state error path. -/
def index (s : Shape) (i : Nat) : Except SlangpyError Int :=
  (s.as_vector).map (fun v => v.getD i 0)

/-- Source: `Shape::operator+`: reads both vectors via `as_vector` (throwing if
either shape is invalid), then appends `other_vec` to a copy of
`this_vec` and wraps the result in a new Shape. -/
def add (a b : Shape) : Except SlangpyError Shape := do
  let this_vec ← a.as_vector
  let other_vec ← b.as_vector
  pure (ofList (this_vec ++ other_vec))

/-- The separator `", "` used by `fmt::join` in `Shape::to_string`. -/
def sep : String := ", "

/-- Source: `Shape::to_string`: `"[invalid]"` when the optional is absent, else
`fmt::format("[{}]", fmt::join(as_vector(), ", "))`, i.e. the decimal
renderings of the dimensions joined by `", "` inside brackets. -/
def to_string (s : Shape) : String :=
  match s.m_shape with
  | none => "[invalid]"
  | some v => "[" ++ String.intercalate sep (v.map (fun dim => ToString.toString dim)) ++ "]"

/-- The C++ `int → size_t` conversion: the unique residue mod `2 ^ 64`. -/
def toSizeT (d : Int) : Nat := (d % (2 ^ 64 : Int)).toNat

/-- Source: `Shape::element_count`: `size_t result = 1; for (auto dim : as_vector())
result *= dim;` — each multiplication converts `dim` to `size_t` and wraps
mod `2 ^ 64`. Propagates the invalid-state error from `as_vector`. -/
def element_count (s : Shape) : Except SlangpyError Nat :=
  (s.as_vector).map (fun v => v.foldl (fun result dim => (result * toSizeT dim) % 2 ^ 64) 1)

/-- The descending loop of `Shape::calc_contiguous_strides`: walking the
dimensions from last to first, each stride slot receives the running
`total`, which is then multiplied by that dimension (`total *= shape[i]`).
Returns the strides vector together with the final `total`. -/
def stridesLoop : List Int → List Int × Int
  | [] => ([], 1)
  | d :: rest =>
    let p := stridesLoop rest
    (p.2 :: p.1, p.2 * d)

/-- Source: `Shape::calc_contiguous_strides`: on a valid shape, runs the descending
stride loop and wraps the strides in a new Shape; on an invalid shape,
returns `Shape()` (invalid) instead of throwing. -/
def calc_contiguous_strides (s : Shape) : Shape :=
  match s.m_shape with
  | some shape => ofList (stridesLoop shape).1
  | none => mkInvalid

/-- Source: `Shape::operator==`: shapes of different validity are unequal, two
invalid shapes are equal, and two valid shapes compare their vectors
element-wise (`*m_shape == *o.m_shape`). Never throws. -/
def eq (s o : Shape) : Bool :=
  if s.valid != o.valid then false
  else if !s.valid && !o.valid then true
  else s.m_shape == o.m_shape

end Shape

/-- Modelled from the spec: `Device` lives outside this core (declared in
`sgl/device/fwd.h`, not part of the sources); the spec treats it as an
opaque, externally owned handle that `CallContext` stores and returns
unchanged. It is embedded as an opaque handle value. -/
structure Device where
  handle : Nat
deriving DecidableEq, Repr

/-- Source: `class CallContext`: stores a device handle, a call shape (by value)
and a call mode, set once at construction. -/
structure CallContext where
  m_device : Device
  m_call_shape : Shape
  m_call_mode : CallMode
deriving DecidableEq, Repr

namespace CallContext

/-- Source: `CallContext::device`: returns the stored device handle. -/
def device (c : CallContext) : Device := c.m_device

/-- Source: `CallContext::call_shape`: returns the stored call shape. -/
def call_shape (c : CallContext) : Shape := c.m_call_shape

/-- Source: `CallContext::call_mode`: returns the stored call mode. -/
def call_mode (c : CallContext) : CallMode := c.m_call_mode

end CallContext

/-! ## Helper lemmas -/

/-- Mapping over a raised error propagates the error. -/
@[simp] theorem exceptMap_error {ε α β : Type} (f : α → β) (e : ε) :
    Except.map f (.error e : Except ε α) = .error e := rfl

/-- Mapping over a success applies the function. -/
@[simp] theorem exceptMap_ok {ε α β : Type} (f : α → β) (a : α) :
    Except.map f (.ok a : Except ε α) = .ok (f a) := rfl

/-- Bind on a raised error propagates the error. -/
@[simp] theorem exceptBind_error {ε α β : Type} (f : α → Except ε β) (e : ε) :
    ((.error e : Except ε α) >>= f) = .error e := rfl

/-- Bind on a success continues with the value. -/
@[simp] theorem exceptBind_ok {ε α β : Type} (f : α → Except ε β) (a : α) :
    ((.ok a : Except ε α) >>= f) = f a := rfl

/-- Functor map on a raised error propagates the error. -/
@[simp] theorem exceptFMap_error {ε α β : Type} (f : α → β) (e : ε) :
    (f <$> (.error e : Except ε α)) = .error e := rfl

/-- Functor map on a success applies the function. -/
@[simp] theorem exceptFMap_ok {ε α β : Type} (f : α → β) (a : α) :
    (f <$> (.ok a : Except ε α)) = .ok (f a) := rfl

/-- An invalid Shape stores the absent optional. -/
theorem Shape.valid_eq_false_iff (s : Shape) : s.valid = false ↔ s.m_shape = none := by
  cases h : s.m_shape <;> simp [Shape.valid, h]

/-- On an invalid Shape, `as_vector` throws the invalid-state error. -/
theorem Shape.as_vector_none (s : Shape) (h : s.m_shape = none) :
    s.as_vector = .error .invalidState := by
  simp [Shape.as_vector, h]

/-- On a valid Shape, `as_vector` returns the stored vector. -/
theorem Shape.as_vector_some (s : Shape) (v : List Int) (h : s.m_shape = some v) :
    s.as_vector = .ok v := by
  simp [Shape.as_vector, h]

/-! ## C1 -/

/-- C1: every accessor of an invalid Shape — `size`, `element_count`,
`concrete`, `index i` for any `i`, and concatenation with any other Shape
on either side — fails with the `InvalidState` error, while `valid` and
equality are total Boolean observations that never fail (they are total
functions into `Bool` in this embedding, recorded here as exhaustive
value disjunctions). -/
theorem c1_invalid_shape_accessors_fail (s t : Shape) (i : Nat) (h : s.valid = false) :
    s.size = .error .invalidState ∧
    s.element_count = .error .invalidState ∧
    s.concrete = .error .invalidState ∧
    s.index i = .error .invalidState ∧
    s.add t = .error .invalidState ∧
    t.add s = .error .invalidState ∧
    (s.eq t = true ∨ s.eq t = false) ∧
    (s.valid = true ∨ s.valid = false) := by
  have hm : s.m_shape = none := (Shape.valid_eq_false_iff s).mp h
  refine ⟨?_, ?_, ?_, ?_, ?_, ?_, ?_, ?_⟩
  · simp [Shape.size, Shape.as_vector, hm]
  · simp [Shape.element_count, Shape.as_vector, hm]
  · simp [Shape.concrete, Shape.as_vector, hm]
  · simp [Shape.index, Shape.as_vector, hm]
  · simp [Shape.add, Shape.as_vector, hm]
  · cases ht : t.m_shape with
    | none => simp [Shape.add, Shape.as_vector, hm, ht]
    | some v => simp [Shape.add, Shape.as_vector, hm, ht]
  · cases hb : s.eq t with
    | false => exact Or.inr rfl
    | true => exact Or.inl rfl
  · exact Or.inr h

/-- Witness for C1 at the default-constructed Shape. -/
theorem c1_witness :
    Shape.mkInvalid.size = .error .invalidState ∧
    Shape.mkInvalid.element_count = .error .invalidState ∧
    Shape.mkInvalid.concrete = .error .invalidState ∧
    Shape.mkInvalid.index 0 = .error .invalidState ∧
    Shape.mkInvalid.add (Shape.ofList [1, 2]) = .error .invalidState ∧
    (Shape.ofList [1, 2]).add Shape.mkInvalid = .error .invalidState ∧
    (Shape.mkInvalid.eq (Shape.ofList [1, 2]) = true ∨
      Shape.mkInvalid.eq (Shape.ofList [1, 2]) = false) ∧
    (Shape.mkInvalid.valid = true ∨ Shape.mkInvalid.valid = false) :=
  c1_invalid_shape_accessors_fail Shape.mkInvalid (Shape.ofList [1, 2]) 0 rfl

/-! ## C2 -/

/-- C2: concatenating two valid Shapes yields a valid Shape whose sequence
is the first sequence followed by the second, with no arithmetic on the
elements, and whose dimension count is the sum of the two dimension
counts. -/
theorem c2_concat_appends (a b : Shape) (va vb : List Int)
    (ha : a.m_shape = some va) (hb : b.m_shape = some vb) :
    a.add b = .ok (Shape.ofList (va ++ vb)) ∧
    (Shape.ofList (va ++ vb)).valid = true ∧
    (Shape.ofList (va ++ vb)).size = .ok (va.length + vb.length) ∧
    a.size = .ok va.length ∧
    b.size = .ok vb.length := by
  refine ⟨?_, rfl, ?_, ?_, ?_⟩
  · simp [Shape.add, Shape.as_vector, ha, hb]
  · simp [Shape.size, Shape.ofList, Shape.as_vector]
  · simp [Shape.size, Shape.as_vector, ha]
  · simp [Shape.size, Shape.as_vector, hb]

/-- Witness for C2 at `[1, 2] + [3]`. -/
theorem c2_witness :
    (Shape.ofList [1, 2]).add (Shape.ofList [3]) = .ok (Shape.ofList ([1, 2] ++ [3])) ∧
    (Shape.ofList ([1, 2] ++ [3])).valid = true ∧
    (Shape.ofList ([1, 2] ++ [3])).size = .ok ([1, 2].length + [3].length) ∧
    (Shape.ofList [1, 2]).size = .ok [1, 2].length ∧
    (Shape.ofList [3]).size = .ok [3].length :=
  c2_concat_appends (Shape.ofList [1, 2]) (Shape.ofList [3]) [1, 2] [3] rfl rfl

/-! ## Strides: helper lemmas about the descending loop -/

/-- The strides vector has one slot per dimension. -/
theorem stridesLoop_fst_length (v : List Int) : (Shape.stridesLoop v).1.length = v.length := by
  induction v with
  | nil => rfl
  | cons d rest ih => simp [Shape.stridesLoop, ih]

/-- The final `total` of the stride loop is the product of the dimensions. -/
theorem stridesLoop_snd (v : List Int) : (Shape.stridesLoop v).2 = v.prod := by
  induction v with
  | nil => rfl
  | cons d rest ih =>
    simp only [Shape.stridesLoop, List.prod_cons, ih]
    ring

/-- Each stride slot holds the product of the dimensions strictly to its
right. -/
theorem stridesLoop_fst_getD (v : List Int) (i : Nat) (h : i < v.length) :
    (Shape.stridesLoop v).1.getD i 0 = (v.drop (i + 1)).prod := by
  induction v generalizing i with
  | nil => simp at h
  | cons d rest ih =>
    cases i with
    | zero => simp [Shape.stridesLoop, stridesLoop_snd]
    | succ j =>
      simp only [Shape.stridesLoop, List.getD_cons_succ, List.drop_succ_cons]
      exact ih j (by simpa using h)

/-! ## C4 -/

/-- C4: on a valid Shape `[d0, ..., dn-1]`, `calc_contiguous_strides`
returns a valid Shape with the same dimension count whose `i`-th entry is
the product of the dimensions strictly to the right of `i` (row-major /
C order), the last stride being `1`. -/
theorem c4_contiguous_strides (s : Shape) (v : List Int) (h : s.m_shape = some v) :
    ∃ w : List Int,
      s.calc_contiguous_strides = Shape.ofList w ∧
      (s.calc_contiguous_strides).valid = true ∧
      w.length = v.length ∧
      (∀ i, i < v.length → w.getD i 0 = (v.drop (i + 1)).prod) ∧
      (v ≠ [] → w.getD (v.length - 1) 0 = 1) := by
  refine ⟨(Shape.stridesLoop v).1, ?_, ?_, stridesLoop_fst_length v, ?_, ?_⟩
  · simp [Shape.calc_contiguous_strides, h]
  · simp [Shape.calc_contiguous_strides, h, Shape.valid, Shape.ofList]
  · exact fun i hi => stridesLoop_fst_getD v i hi
  · intro hne
    have hlen : 0 < v.length := List.length_pos.mpr hne
    have := stridesLoop_fst_getD v (v.length - 1) (by omega)
    rw [this]
    have hdrop : v.length - 1 + 1 = v.length := by omega
    rw [hdrop, List.drop_length, List.prod_nil]

/-- Witness for C4 at `[2, 3, 4]`, whose contiguous strides are
`[12, 4, 1]`. -/
theorem c4_witness :
    (Shape.ofList [2, 3, 4]).calc_contiguous_strides = Shape.ofList [12, 4, 1] ∧
    (∃ w : List Int,
      (Shape.ofList [2, 3, 4]).calc_contiguous_strides = Shape.ofList w ∧
      ((Shape.ofList [2, 3, 4]).calc_contiguous_strides).valid = true ∧
      w.length = ([2, 3, 4] : List Int).length ∧
      (∀ i, i < ([2, 3, 4] : List Int).length →
        w.getD i 0 = (([2, 3, 4] : List Int).drop (i + 1)).prod) ∧
      (([2, 3, 4] : List Int) ≠ [] →
        w.getD (([2, 3, 4] : List Int).length - 1) 0 = 1)) :=
  ⟨by decide, c4_contiguous_strides (Shape.ofList [2, 3, 4]) [2, 3, 4] rfl⟩

/-! ## C5 -/

/-- C5: `calc_contiguous_strides` on an invalid Shape returns the invalid
Shape instead of failing, while the other accessors (`size`,
`element_count`, `concrete`, `index`) raise the `InvalidState` error on
the same input — the graceful degradation is unique to the stride
computation. -/
theorem c5_strides_degrade_gracefully (s : Shape) (i : Nat) (h : s.valid = false) :
    s.calc_contiguous_strides = Shape.mkInvalid ∧
    (s.calc_contiguous_strides).valid = false ∧
    s.size = .error .invalidState ∧
    s.element_count = .error .invalidState ∧
    s.concrete = .error .invalidState ∧
    s.index i = .error .invalidState := by
  have hm : s.m_shape = none := (Shape.valid_eq_false_iff s).mp h
  refine ⟨?_, ?_, ?_, ?_, ?_, ?_⟩
  · simp [Shape.calc_contiguous_strides, hm]
  · simp [Shape.calc_contiguous_strides, hm, Shape.mkInvalid, Shape.valid]
  · simp [Shape.size, Shape.as_vector, hm]
  · simp [Shape.element_count, Shape.as_vector, hm]
  · simp [Shape.concrete, Shape.as_vector, hm]
  · simp [Shape.index, Shape.as_vector, hm]

/-- Witness for C5 at the default-constructed Shape. -/
theorem c5_witness :
    Shape.mkInvalid.calc_contiguous_strides = Shape.mkInvalid ∧
    (Shape.mkInvalid.calc_contiguous_strides).valid = false ∧
    Shape.mkInvalid.size = .error .invalidState ∧
    Shape.mkInvalid.element_count = .error .invalidState ∧
    Shape.mkInvalid.concrete = .error .invalidState ∧
    Shape.mkInvalid.index 3 = .error .invalidState :=
  c5_strides_degrade_gracefully Shape.mkInvalid 3 rfl

/-! ## C6 -/

/-- C6: Shape equality — two invalid Shapes are equal; an invalid and a
valid Shape (even a valid empty one) are never equal, in either order;
two valid Shapes are equal exactly when their sequences are equal as
lists (same length, same elements, same order). -/
theorem c6_equality (s t : Shape) :
    (s.valid = false → t.valid = false → s.eq t = true) ∧
    (s.valid = false → t.valid = true → s.eq t = false ∧ t.eq s = false) ∧
    (∀ a b, s.m_shape = some a → t.m_shape = some b → (s.eq t = true ↔ a = b)) := by
  cases hs : s.m_shape with
  | none =>
    cases ht : t.m_shape with
    | none =>
      refine ⟨fun _ _ => ?_, fun _ hv => ?_, fun a b ha hb => ?_⟩
      · simp [Shape.eq, Shape.valid, hs, ht]
      · simp [Shape.valid, ht] at hv
      · simp [hs] at ha
    | some vb =>
      refine ⟨fun _ hv => ?_, fun _ _ => ?_, fun a b ha hb => ?_⟩
      · simp [Shape.valid, ht] at hv
      · constructor <;> simp [Shape.eq, Shape.valid, hs, ht]
      · simp [hs] at ha
  | some va =>
    refine ⟨fun hv _ => ?_, fun hv _ => ?_, fun a b ha hb => ?_⟩
    · simp [Shape.valid, hs] at hv
    · simp [Shape.valid, hs] at hv
    · cases ht : t.m_shape with
      | none => simp [ht] at hb
      | some vb =>
        have ha2 : va = a := Option.some.inj ha
        have hb2 : b = vb := Option.some.inj (hb.symm.trans ht)
        subst ha2
        subst hb2
        simp [Shape.eq, Shape.valid, hs, ht]

/-- Witness for C6: the four concrete comparisons named by the spec. -/
theorem c6_witness :
    Shape.mkInvalid.eq Shape.mkInvalid = true ∧
    Shape.mkInvalid.eq (Shape.ofList []) = false ∧
    (Shape.ofList [1, 2]).eq (Shape.ofList [1, 2]) = true ∧
    (Shape.ofList [1, 2]).eq (Shape.ofList [2, 1]) = false := by
  refine ⟨?_, ?_, ?_, ?_⟩
  · exact (c6_equality Shape.mkInvalid Shape.mkInvalid).1 rfl rfl
  · exact ((c6_equality Shape.mkInvalid (Shape.ofList [])).2.1 rfl rfl).1
  · exact ((c6_equality (Shape.ofList [1, 2]) (Shape.ofList [1, 2])).2.2 [1, 2] [1, 2] rfl rfl).mpr rfl
  · have h := (c6_equality (Shape.ofList [1, 2]) (Shape.ofList [2, 1])).2.2 [1, 2] [2, 1] rfl rfl
    exact Bool.eq_false_iff.mpr fun hc => by simpa using h.mp hc

/-! ## C7 -/

/-- C7: the display string never fails — a valid Shape renders as the
bracketed, comma-space separated decimal list of its dimensions, and an
invalid Shape renders as the literal `"[invalid]"`. -/
theorem c7_to_string (s : Shape) :
    (s.valid = false → s.to_string = "[invalid]") ∧
    (∀ v, s.m_shape = some v →
      s.to_string =
        "[" ++ String.intercalate Shape.sep (v.map (fun dim => ToString.toString dim)) ++ "]") := by
  cases hs : s.m_shape with
  | none =>
    refine ⟨fun _ => ?_, fun v hv => ?_⟩
    · simp [Shape.to_string, hs]
    · simp [hs] at hv
  | some v =>
    refine ⟨fun hv => ?_, fun w hw => ?_⟩
    · simp [Shape.valid, hs] at hv
    · have hw2 : v = w := Option.some.inj hw
      subst hw2
      simp [Shape.to_string, hs]

/-- Witness for C7: `Shape([5])` renders as `"[5]"` and the invalid Shape
as `"[invalid]"`. -/
theorem c7_witness :
    (Shape.ofList [5]).to_string = "[5]" ∧
    Shape.mkInvalid.to_string = "[invalid]" := by
  constructor
  · rw [(c7_to_string (Shape.ofList [5])).2 [5] rfl]
    rfl
  · exact (c7_to_string Shape.mkInvalid).1 rfl

/-! ## C8 -/

/-- C8: on a valid Shape, `concrete` succeeds with `true` exactly when no
dimension equals the `-1` sentinel, and always succeeds with some
Boolean. -/
theorem c8_concrete_iff (s : Shape) (v : List Int) (h : s.m_shape = some v) :
    (s.concrete = .ok true ↔ ¬ (-1 : Int) ∈ v) ∧
    (s.concrete = .ok true ∨ s.concrete = .ok false) := by
  have hc : s.concrete = .ok (v.all (fun dim => dim != -1)) := by
    simp [Shape.concrete, Shape.as_vector, h]
  constructor
  · rw [hc]
    constructor
    · intro hall hmem
      have h2 := Except.ok.inj hall
      rw [List.all_eq_true] at h2
      have h3 := h2 (-1) hmem
      simp at h3
    · intro hmem
      have : v.all (fun dim => dim != -1) = true := by
        rw [List.all_eq_true]
        intro x hx
        simp only [bne_iff_ne, ne_eq]
        exact fun he => hmem (he ▸ hx)
      rw [this]
  · rw [hc]
    cases v.all (fun dim => dim != -1) with
    | true => exact Or.inl rfl
    | false => exact Or.inr rfl

/-- Witness for C8: `Shape([2,-1,4])` is not concrete, `Shape([2,3,4])`
is. -/
theorem c8_witness :
    (Shape.ofList [2, -1, 4]).concrete = .ok false ∧
    (Shape.ofList [2, 3, 4]).concrete = .ok true := by
  constructor
  · have h := c8_concrete_iff (Shape.ofList [2, -1, 4]) [2, -1, 4] rfl
    rcases h.2 with htrue | hfalse
    · exact absurd (h.1.mp htrue) (by simp)
    · exact hfalse
  · exact (c8_concrete_iff (Shape.ofList [2, 3, 4]) [2, 3, 4] rfl).1.mpr (by decide)

/-! ## C9 -/

/-- C9: constructing a `CallContext` from any device handle, any Shape
(valid or invalid) and any of the three call modes, then reading back
`device`, `call_shape` and `call_mode`, yields exactly the three inputs;
the accessors are total and the structure has no mutating operation. -/
theorem c9_callcontext_roundtrip (d : Device) (s : Shape) (m : CallMode) :
    (CallContext.mk d s m).device = d ∧
    (CallContext.mk d s m).call_shape = s ∧
    (CallContext.mk d s m).call_mode = m :=
  ⟨rfl, rfl, rfl⟩

/-! ## Element count: helper lemmas about the modular product loop -/

/-- The wrapping product loop of `element_count`, started at a reduced
accumulator, computes the modular product. -/
theorem foldl_mul_mod (v : List Int) (a : Nat) :
    v.foldl (fun result dim => (result * Shape.toSizeT dim) % 2 ^ 64) (a % 2 ^ 64) =
      (a * (v.map Shape.toSizeT).prod) % 2 ^ 64 := by
  induction v generalizing a with
  | nil => simp
  | cons d rest ih =>
    simp only [List.foldl_cons, List.map_cons, List.prod_cons]
    rw [Nat.mod_mul_mod, ih (a * Shape.toSizeT d), Nat.mul_assoc]

/-- Source: `element_count` on a valid Shape is the product of the `size_t`
conversions of the dimensions, reduced mod `2 ^ 64`. -/
theorem element_count_eq (s : Shape) (v : List Int) (h : s.m_shape = some v) :
    s.element_count = .ok ((v.map Shape.toSizeT).prod % 2 ^ 64) := by
  have hfold := foldl_mul_mod v 1
  rw [Nat.one_mul] at hfold
  rw [show (1 % 2 ^ 64 : Nat) = 1 from by norm_num] at hfold
  simp only [Shape.element_count, Shape.as_vector, h, exceptMap_ok]
  rw [hfold]

/-- The `int → size_t` conversion of a non-negative value is its residue
mod `2 ^ 64`. -/
theorem toSizeT_of_nonneg (d : Int) (hd : 0 ≤ d) : Shape.toSizeT d = d.toNat % 2 ^ 64 := by
  unfold Shape.toSizeT
  omega

/-! ## C3 -/

/-- C3 (counterexample): the claim that `element_count` returns the exact
mathematical product for every valid all-non-negative Shape fails once the
product reaches `2 ^ 64`: `[65536, 65536, 65536, 65536, 65536]` has
product `2 ^ 80`, but `element_count` wraps the `size_t` accumulator and
returns `0`. -/
theorem c3_counterexample :
    (Shape.ofList [65536, 65536, 65536, 65536, 65536]).element_count ≠
      Except.ok ((([65536, 65536, 65536, 65536, 65536] : List Int).map Int.toNat).prod) := by
  decide

/-- C3 (amended): on a valid Shape whose dimensions are all non-negative
and whose product is below `2 ^ 64`, `element_count` returns the exact
product of the dimensions; the empty sequence yields `1` (the empty
product). -/
theorem c3_element_count_product (s : Shape) (v : List Int) (h : s.m_shape = some v)
    (hnn : ∀ d ∈ v, 0 ≤ d) (hlt : (v.map Int.toNat).prod < 2 ^ 64) :
    s.element_count = .ok ((v.map Int.toNat).prod) := by
  have he := element_count_eq s v h
  have hmap : v.map Shape.toSizeT = (v.map Int.toNat).map (fun n => n % 2 ^ 64) := by
    rw [List.map_map]
    apply List.map_congr_left
    intro d hd
    exact toSizeT_of_nonneg d (hnn d hd)
  have hprod : (v.map Shape.toSizeT).prod % 2 ^ 64 = (v.map Int.toNat).prod % 2 ^ 64 := by
    rw [hmap]
    exact (List.prod_nat_mod (v.map Int.toNat) (2 ^ 64)).symm
  rw [he, hprod, Nat.mod_eq_of_lt hlt]

/-- Witness for the amended C3 at `[2, 3, 4]`, whose element count is
`24`. -/
theorem c3_witness :
    (Shape.ofList [2, 3, 4]).element_count = .ok ((([2, 3, 4] : List Int).map Int.toNat).prod) ∧
    (([2, 3, 4] : List Int).map Int.toNat).prod = 24 ∧
    (Shape.ofList []).element_count = .ok ((([] : List Int).map Int.toNat).prod) ∧
    (([] : List Int).map Int.toNat).prod = 1 :=
  ⟨c3_element_count_product (Shape.ofList [2, 3, 4]) [2, 3, 4] rfl (by decide) (by decide),
    by decide,
    c3_element_count_product (Shape.ofList []) [] rfl (by decide) (by decide),
    by decide⟩

/-! ## C10 -/

/-- C10: `element_count` is computed in unsigned 64-bit (`size_t`)
arithmetic — on every valid Shape it returns the product of the
dimensions' `size_t` conversions reduced mod `2 ^ 64` (a `Nat`, never a
negative number), so the `-1` sentinel multiplies as `2 ^ 64 - 1` and
`Shape([-1]).element_count() == 2 ^ 64 - 1`. -/
theorem c10_element_count_modular (s : Shape) (v : List Int) (h : s.m_shape = some v) :
    s.element_count = .ok ((v.map Shape.toSizeT).prod % 2 ^ 64) ∧
    Shape.toSizeT (-1) = 2 ^ 64 - 1 ∧
    (Shape.ofList [-1]).element_count = .ok (2 ^ 64 - 1) := by
  refine ⟨element_count_eq s v h, by decide, by decide⟩

/-- Witness for C10 at `[3, 7]`. -/
theorem c10_witness :
    (Shape.ofList [3, 7]).element_count = .ok ((([3, 7] : List Int).map Shape.toSizeT).prod % 2 ^ 64) ∧
    Shape.toSizeT (-1) = 2 ^ 64 - 1 ∧
    (Shape.ofList [-1]).element_count = .ok (2 ^ 64 - 1) :=
  c10_element_count_modular (Shape.ofList [3, 7]) [3, 7] rfl

end Slangpy
